import Mathlib

/-!
# Verification of the MuteOne separation / recording engine

A shallow embedding, in Lean 4, of the parts of the MuteOne desktop
application that the specification talks about:

* `src/audio/processor.py` — `ModelManager` (model-load quarantine) and
  `AudioProcessor` (multi-stem kept-mix reconstruction, output-path
  disambiguation);
* `src/processor.py` — the second `AudioProcessor` (MDX / Demucs routing and
  the per-stem save loop);
* `src/audio/overdub.py` — `OverdubRecorder.record_overdub`;
* `src/audio/player.py` — `AudioPlayer.seek` / `get_duration`;
* `src/ui/record.py` — `LiveRecorder` start / finalize behaviour.

Audio samples are modelled as integers (`Int`), an exact-arithmetic stand-in
for the float32 samples of the source; the claims under study are structural
(which stems are summed, how many frames a buffer has), not about floating
point rounding.  Waveforms are lists of samples; multichannel buffers are
modelled by their channel-0 contents, which is the only channel the mixdown
code under study touches.  The filesystem is modelled as the finite list of
paths that exist, and the opaque model-loading backends as a `String → Bool`
success oracle.
-/

/-! ## Kept-mix reconstruction (src/audio/processor.py, AudioProcessor.run, lines 110-113) -/

/-- Pointwise sum of two equally shaped waveforms (`final_mix += sources[i]`,
torch elementwise addition). -/
def addWave (a b : List Int) : List Int := List.zipWith (· + ·) a b

/-- `final_mix = torch.zeros_like(sources[0])` followed by
`for i, label in enumerate(model.sources): if label != instrument_to_remove:
final_mix += sources[i]` — the Python `!=` is exact (case-sensitive) string
disequality.  The labelled stems are passed as `(label, samples)` pairs. -/
def finalMix (sources : List (String × List Int)) (instrument_to_remove : String) : List Int :=
  sources.foldl
    (fun final_mix s => if s.1 != instrument_to_remove then addWave final_mix s.2 else final_mix)
    (List.replicate (sources.headD ("", [])).2.length 0)

/-- Python's `str.lower()` restricted to its ASCII behaviour (all strings the
program compares are ASCII). -/
def strToLower (s : String) : String := String.mk (s.data.map Char.toLower)

/-- `src/processor.py`, `AudioProcessor.run`, lines 208-211:
`for i, name in enumerate(model.sources): if name.lower() == instrument:
continue; torchaudio.save(out_path, _fix_tensor(sources[i].cpu()), sr)` —
every kept stem is written to the same `out_path` in turn, so the file that
remains holds the payload of the last kept stem (`none` when every stem was
skipped and no save happened). -/
def demucs_saved_output (sources : List (String × List Int)) (instrument : String) :
    Option (List Int) :=
  sources.foldl (fun acc s => if strToLower s.1 == instrument then acc else some s.2) none

/-- Modelled from the spec: "reconstruct the kept mix by summing every
returned stem whose label does not equal the removed instrument
(case-insensitive comparison)".  This is the specification's description of
the kept mix, written down independently of the source code so the two can be
compared; `n` is the common frame count of the stems. -/
def specKeptSum (sources : List (String × List Int)) (instrument : String) (n : Nat) : List Int :=
  ((sources.filter fun s => strToLower s.1 != strToLower instrument).map Prod.snd).foldl
    addWave (List.replicate n 0)

/-! ## ModelManager (src/audio/processor.py, lines 9-54) -/

/-- The two load-failure modes of `load_model_safely`: the quarantine hit
(`"Model {name} previously failed"`) and a fresh backend failure
(`"Failed to load {name}: {e}"`). -/
inductive LoadError where
  | previouslyFailed
  | loadFailed
  deriving DecidableEq

/-- `ModelManager.__init__`: `self.failed_models = set()` (the set is modelled
as the list of its elements) and the torch device probe
(`cuda` if available, else `mps` if available, else `cpu`). -/
structure ModelManager where
  failed_models : List String
  device : String
  deriving DecidableEq

/-- `ModelManager.__init__` with the two device-availability probe results as
inputs. -/
def ModelManager.init (cuda_available mps_available : Bool) : ModelManager :=
  { failed_models := [],
    device := if cuda_available then "cuda" else if mps_available then "mps" else "cpu" }

/-- `is_mdx_model`: `"MDX" in model_name or "UVR" in model_name`
(substring containment). -/
def is_mdx_model (model_name : String) : Bool :=
  decide ("MDX".toList <:+: model_name.toList) || decide ("UVR".toList <:+: model_name.toList)

/-- `get_models_for_task`: `["UVR-MDX-NET-Voc_FT.onnx"]` for a high-quality
vocals task, `["htdemucs_ft"]` for everything else. -/
def get_models_for_task (task : String) (high_quality : Bool) : List String :=
  if task == "vocals" && high_quality then ["UVR-MDX-NET-Voc_FT.onnx"] else ["htdemucs_ft"]

/-- The observable outcome of one `load_model_safely` call: whether it
returned or raised (and which error), the manager state afterwards, and how
many backend load attempts were made during the call. -/
structure LoadResult where
  outcome : Except LoadError Unit
  mm : ModelManager
  attempts : Nat

/-- `ModelManager.load_model_safely`: raise `previouslyFailed` at once when
the name is quarantined (no backend attempt); otherwise attempt the backend
load (the MDX/Demucs branch is abstracted into the success oracle
`backend_load_ok`, since both branches feed the same `except` handler), and
on failure add the name to `failed_models` and raise `loadFailed`. -/
def load_model_safely (mm : ModelManager) (backend_load_ok : String → Bool)
    (model_name : String) : LoadResult :=
  if model_name ∈ mm.failed_models then
    { outcome := Except.error LoadError.previouslyFailed, mm := mm, attempts := 0 }
  else if backend_load_ok model_name then
    { outcome := Except.ok (), mm := mm, attempts := 1 }
  else
    { outcome := Except.error LoadError.loadFailed,
      mm := { mm with failed_models := model_name :: mm.failed_models },
      attempts := 1 }

/-! ## AudioProcessor construction and routing -/

/-- `src/audio/processor.py`, `AudioProcessor.__init__`, lines 75-81: the job
parameters are stored and a brand-new `ModelManager()` is constructed for
this processor instance. -/
structure AudioProcessor1 where
  input_file : String
  output_dir : String
  instruments_to_remove : List String
  high_quality : Bool
  model_manager : ModelManager
  deriving DecidableEq

/-- `AudioProcessor.__init__` of `src/audio/processor.py` (one processor is
constructed per separation job; the trailing booleans are the fresh
manager's device probe results). -/
def AudioProcessor1.init (input_file output_dir : String)
    (instruments_to_remove : List String)
    (high_quality cuda_available mps_available : Bool) : AudioProcessor1 :=
  { input_file := input_file, output_dir := output_dir,
    instruments_to_remove := instruments_to_remove, high_quality := high_quality,
    model_manager := ModelManager.init cuda_available mps_available }

/-- `src/audio/processor.py`, `AudioProcessor.run`, lines 96-97: the model
name used by the job is the literal `"htdemucs_ft"`, whatever the requested
instruments and quality flag are. -/
def run1_model_name (instruments_to_remove : List String) (high_quality : Bool) : String :=
  "htdemucs_ft"

/-- The two separation backends instantiated by `src/processor.py`: the MDX
wrapper (single-stem isolator) and a Demucs model (multi-stem separator),
each carrying the model identifier it is constructed with. -/
inductive Backend where
  | mdx : String → Backend
  | demucs : String → Backend
  deriving DecidableEq

/-- Whether a backend is the single-stem isolator kind. -/
def Backend.is_single_stem : Backend → Bool
  | .mdx _ => true
  | .demucs _ => false

/-- `src/processor.py`, `AudioProcessor.run`, line 157:
`instrument = instruments_to_remove[0].lower() if instruments_to_remove else
"vocals"`. -/
def run2_instrument (instruments_to_remove : List String) : String :=
  match instruments_to_remove with
  | [] => "vocals"
  | i :: _ => strToLower i

/-- `src/processor.py`, `AudioProcessor.run`, lines 159-193: the vocals
branch constructs `MDXModelWrapper("UVR-MDX-NET-Inst_HQ_1.onnx")`, every
other instrument goes to Demucs `"htdemucs_ft"`. -/
def run2_backend (instruments_to_remove : List String) : Backend :=
  if run2_instrument instruments_to_remove == "vocals" then
    Backend.mdx "UVR-MDX-NET-Inst_HQ_1.onnx"
  else
    Backend.demucs "htdemucs_ft"

/-! ## Output-path disambiguation (src/audio/processor.py, save_output, lines 120-135) -/

/-- `base_name = f"{input_path.stem}_muteone_no_{instrument_name}"` with
`instrument_name = self.instruments_to_remove[0] if self.instruments_to_remove
else "unknown"`. -/
def base_name (input_stem : String) (instruments_to_remove : List String) : String :=
  input_stem ++ "_muteone_no_" ++ instruments_to_remove.headD "unknown"

/-- The candidate output path tried at loop counter `c`: the canonical
`f"{base_name}.wav"` for `c = 0`, and `f"{base_name}_{counter}.wav"` once the
collision loop has incremented `counter` to `c ≥ 1` (`os.path.join` with the
`/` separator). -/
def candidate (output_dir bn : String) (c : Nat) : String :=
  if c = 0 then output_dir ++ "/" ++ bn ++ ".wav"
  else output_dir ++ "/" ++ bn ++ "_" ++ Nat.repr c ++ ".wav"

/-- The `while os.path.exists(output_path): counter += 1; ...` loop of
`save_output`, returning the final counter.  The filesystem is the finite
list `existing`; the loop is written with explicit fuel, and
`save_output_path` supplies enough fuel (`existing.length + 1`) that a free
candidate is always reached. -/
def find_free_counter (existing : List String) (output_dir bn : String) : Nat → Nat → Nat
  | 0, c => c
  | fuel + 1, c =>
    if candidate output_dir bn c ∈ existing then
      find_free_counter existing output_dir bn fuel (c + 1)
    else c

/-- The path `save_output` finally writes to, given the set of paths that
exist in the output directory. -/
def save_output_path (existing : List String) (output_dir bn : String) : String :=
  candidate output_dir bn (find_free_counter existing output_dir bn (existing.length + 1) 0)

/-! ## OverdubRecorder (src/audio/overdub.py) -/

/-- `OverdubRecorder` state: the loaded backing buffer (channel 0), if any,
and the sample rate (44100 until `load_backing` replaces it with the file's
rate). -/
structure OverdubRecorder where
  backing_data : Option (List Int)
  samplerate : Nat

/-- How a `record_overdub` call can fail: the `RuntimeError("No backing
loaded for overdub")` precondition check, or the numpy broadcast error raised
by the in-place mixdown sum when the shapes do not match. -/
inductive OverdubError where
  | noBackingLoaded
  | broadcastMismatch
  deriving DecidableEq

/-- `OverdubRecorder.record_overdub(duration, out_path)`, returning the mixed
buffer that is written to `out_path` (or the exception raised).

Line by line: the `backing_data is None` guard; the capture-buffer
allocation `recorded = np.zeros((int(duration * self.samplerate), 1))` whose
final contents are modelled by the stream-input oracle `capture`; the
truncation `backing = self.backing_data[:len(recorded)]`; and the mixdown
`mixed = backing.copy(); mixed[:len(recorded), 0] += recorded[:, 0]`.  The
slice `mixed[:len(recorded)]` has `min (len recorded) (len backing) =
len backing` rows, so the in-place numpy sum broadcasts the length-`n`
right-hand side into it exactly when `n = backing.length` or `n = 1`
(a size-1 axis broadcasts); any other shape pair raises. -/
def record_overdub (r : OverdubRecorder) (duration : Nat) (capture : Nat → Int) :
    Except OverdubError (List Int) :=
  match r.backing_data with
  | none => Except.error OverdubError.noBackingLoaded
  | some backing_data =>
    let n := duration * r.samplerate
    let recorded := (List.range n).map capture
    let backing := backing_data.take n
    if recorded.length = backing.length ∨ recorded.length = 1 then
      Except.ok (List.zipWith (· + ·) backing recorded ++ backing.drop recorded.length)
    else Except.error OverdubError.broadcastMismatch

/-! ## AudioPlayer (src/audio/player.py) -/

/-- `AudioPlayer` state: the loaded buffer (`self.data`, frame list), the
sample rate, and the playback cursor `self.position` (always clamped
non-negative by every assignment in the source, hence a `Nat`). -/
structure AudioPlayer where
  data : Option (List Int)
  samplerate : Nat
  position : Nat
  deriving DecidableEq

/-- Python `int(...)` on a rational value: truncation toward zero. -/
def pyInt (q : ℚ) : Int := if q < 0 then -(Int.floor (-q)) else Int.floor q

/-- `AudioPlayer.seek(seconds)`, lines 80-84: no-op without a loaded buffer,
otherwise `frame = int(seconds * self.samplerate)` and
`self.position = max(0, min(frame, len(self.data)))`. -/
def seek (p : AudioPlayer) (seconds : ℚ) : AudioPlayer :=
  match p.data with
  | none => p
  | some d =>
    { p with position := (max 0 (min (pyInt (seconds * (p.samplerate : ℚ))) (d.length : Int))).toNat }

/-- `AudioPlayer.get_duration`: `len(self.data) / self.samplerate` when a
buffer is loaded, `0.0` otherwise. -/
def get_duration (p : AudioPlayer) : ℚ :=
  match p.data with
  | none => 0
  | some d => (d.length : ℚ) / (p.samplerate : ℚ)

/-! ## LiveRecorder (src/ui/record.py) -/

/-- The `LiveRecorder` fields the stop/persist logic reads: the recording
flag, the accumulated raw blocks, and the temp file path chosen at start. -/
structure LiveRecorder where
  is_recording : Bool
  audio_data : List (List Int)
  temp_file_path : Option String
  deriving DecidableEq

/-- `os.path.join(temp_dir, f"muteone_recording_{int(time.time())}.wav")`. -/
def temp_recording_path (temp_dir : String) (timestamp : Nat) : String :=
  temp_dir ++ "/muteone_recording_" ++ Nat.repr timestamp ++ ".wav"

/-- `LiveRecorder.start_recording`: early-return when already recording,
otherwise reset `audio_data`, choose the timestamped temp path and set the
flag (the capture thread is then started). -/
def start_recording (r : LiveRecorder) (temp_dir : String) (timestamp : Nat) : LiveRecorder :=
  if r.is_recording then r
  else
    { is_recording := true, audio_data := [],
      temp_file_path := some (temp_recording_path temp_dir timestamp) }

/-- The tail of `LiveRecorder.run`, lines 138-139 with `save_recording`:
`if self.audio_data and self.temp_file_path: self.save_recording()` — the
recording is persisted, and its path emitted via `recording_stopped`, only
when the captured block list is non-empty and the temp path is truthy (not
`None` and not the empty string); otherwise nothing is written and no path is
reported.  Returns the reported path. -/
def run_finalize (audio_data : List (List Int)) (temp_file_path : Option String) :
    Option String :=
  match temp_file_path with
  | none => none
  | some path => if audio_data ≠ [] ∧ path ≠ "" then some path else none

/-! ## Proof-infrastructure definitions -/

/-- The character list of the usual decimal rendering of a natural number
(`"0"` for zero, most-significant digit first otherwise); shown below to be
the character data of `Nat.repr`. -/
def decimal_chars (n : Nat) : List Char :=
  if n = 0 then ['0'] else ((Nat.digits 10 n).map Nat.digitChar).reverse

/-! ## Helper lemmas -/

theorem foldl_ite_filter {α β : Type} (p : α → Bool) (g : β → α → β) :
    ∀ (l : List α) (acc : β),
      l.foldl (fun acc s => if p s then g acc s else acc) acc = (l.filter p).foldl g acc := by
  intro l
  induction l with
  | nil => intro acc; rfl
  | cons a l ih =>
    intro acc
    by_cases h : p a <;> simp [List.filter_cons, h, ih]

theorem foldl_ite_keepLast {α β : Type} (p : α → Bool) (f : α → β) :
    ∀ (l : List α) (acc : Option β),
      l.foldl (fun acc s => if p s then acc else some (f s)) acc =
        (((l.filter fun s => !p s).map f).getLast?).or acc := by
  intro l
  induction l with
  | nil => intro acc; simp
  | cons a l ih =>
    intro acc
    by_cases h : p a
    · simp only [List.foldl_cons, h, if_pos, List.filter_cons, Bool.not_eq_true']
      rw [ih]
      simp [h]
    · simp only [List.foldl_cons, h, if_neg, List.filter_cons, Bool.not_eq_true']
      rw [ih]
      simp only [h, Bool.not_false, if_pos, List.map_cons]
      rcases hrest : (l.filter fun s => !p s).map f with _ | ⟨b, rest⟩
      · simp
      · rw [List.getLast?_cons_cons]
        rcases hlast : (b :: rest).getLast? with _ | x
        · exact absurd (List.getLast?_eq_none_iff.mp hlast) (by simp)
        · simp [Option.or]

theorem toDigitsCore_eq_digits (b : Nat) (hb : 1 < b) :
    ∀ (f n : Nat) (ds : List Char), 0 < n → n < f →
      Nat.toDigitsCore b f n ds = ((Nat.digits b n).map Nat.digitChar).reverse ++ ds := by
  intro f
  induction f with
  | zero => intro n ds hn hf; omega
  | succ f ih =>
    intro n ds hn hf
    rw [Nat.digits_def' hb hn]
    show (if n / b = 0 then Nat.digitChar (n % b) :: ds
          else Nat.toDigitsCore b f (n / b) (Nat.digitChar (n % b) :: ds)) = _
    by_cases h : n / b = 0
    · simp [h, Nat.digits_zero]
    · rw [if_neg h,
        ih (n / b) (Nat.digitChar (n % b) :: ds) (Nat.pos_of_ne_zero h)
          (lt_of_lt_of_le (Nat.div_lt_self hn hb) (Nat.le_of_lt_succ hf))]
      simp [List.append_assoc]

theorem repr_data_eq_decimal_chars (n : Nat) : (Nat.repr n).data = decimal_chars n := by
  by_cases h : n = 0
  · subst h; rfl
  · show (Nat.toDigits 10 n).asString.data = decimal_chars n
    unfold Nat.toDigits
    rw [toDigitsCore_eq_digits 10 (by norm_num) (n + 1) n [] (Nat.pos_of_ne_zero h)
      (Nat.lt_succ_self n)]
    simp [decimal_chars, h, List.asString]

theorem digitChar_inj_lt (d e : Nat) (hd : d < 10) (he : e < 10)
    (h : Nat.digitChar d = Nat.digitChar e) : d = e := by
  have key : ∀ d' e' : Fin 10, Nat.digitChar d' = Nat.digitChar e' → (d' : Nat) = e' := by decide
  exact key ⟨d, hd⟩ ⟨e, he⟩ h

theorem map_digitChar_inj :
    ∀ (l₁ l₂ : List Nat), (∀ d ∈ l₁, d < 10) → (∀ d ∈ l₂, d < 10) →
      l₁.map Nat.digitChar = l₂.map Nat.digitChar → l₁ = l₂ := by
  intro l₁
  induction l₁ with
  | nil => intro l₂ _ _ h; cases l₂ <;> simp_all
  | cons a l ih =>
    intro l₂ h₁ h₂ h
    cases l₂ with
    | nil => simp_all
    | cons b t =>
      simp only [List.map_cons, List.cons.injEq] at h
      have ha : a = b :=
        digitChar_inj_lt a b (h₁ a (List.mem_cons_self a l)) (h₂ b (List.mem_cons_self b t)) h.1
      have ht : l = t :=
        ih t (fun d hd => h₁ d (List.mem_cons_of_mem a hd))
          (fun d hd => h₂ d (List.mem_cons_of_mem b hd)) h.2
      rw [ha, ht]

theorem decimal_chars_inj : Function.Injective decimal_chars := by
  intro m n h
  unfold decimal_chars at h
  by_cases hm : m = 0 <;> by_cases hn : n = 0
  · omega
  · rw [if_pos hm, if_neg hn] at h
    have : (Nat.digits 10 n).map Nat.digitChar = ['0'] := by
      have := congrArg List.reverse h
      simpa using this.symm
    have hdig : Nat.digits 10 n = [0] := by
      apply map_digitChar_inj _ _ (fun d hd => Nat.digits_lt_base (by norm_num) hd)
        (by intro d hd; simp at hd; omega)
      simpa using this
    have := Nat.ofDigits_digits 10 n
    rw [hdig] at this
    simp [Nat.ofDigits_cons, Nat.ofDigits_nil] at this
    omega
  · rw [if_neg hm, if_pos hn] at h
    have : (Nat.digits 10 m).map Nat.digitChar = ['0'] := by
      have := congrArg List.reverse h
      simpa using this
    have hdig : Nat.digits 10 m = [0] := by
      apply map_digitChar_inj _ _ (fun d hd => Nat.digits_lt_base (by norm_num) hd)
        (by intro d hd; simp at hd; omega)
      simpa using this
    have := Nat.ofDigits_digits 10 m
    rw [hdig] at this
    simp [Nat.ofDigits_cons, Nat.ofDigits_nil] at this
    omega
  · rw [if_neg hm, if_neg hn] at h
    have h' : (Nat.digits 10 m).map Nat.digitChar = (Nat.digits 10 n).map Nat.digitChar :=
      List.reverse_injective h
    have hdig : Nat.digits 10 m = Nat.digits 10 n :=
      map_digitChar_inj _ _ (fun d hd => Nat.digits_lt_base (by norm_num) hd)
        (fun d hd => Nat.digits_lt_base (by norm_num) hd) h'
    have h1 := Nat.ofDigits_digits 10 m
    have h2 := Nat.ofDigits_digits 10 n
    rw [hdig] at h1
    omega

theorem nat_repr_inj : Function.Injective Nat.repr := by
  intro m n h
  exact decimal_chars_inj
    (repr_data_eq_decimal_chars m ▸ repr_data_eq_decimal_chars n ▸ congrArg String.data h)

theorem one_le_repr_data_length (n : Nat) : 1 ≤ (Nat.repr n).data.length := by
  rw [repr_data_eq_decimal_chars]
  unfold decimal_chars
  by_cases h : n = 0
  · simp [h]
  · rw [if_neg h]
    simp only [List.length_reverse, List.length_map]
    cases hd : Nat.digits 10 n with
    | nil => exact absurd hd (Nat.digits_ne_nil_iff_ne_zero.mpr h)
    | cons a t => simp

theorem candidate_injective (output_dir bn : String) :
    Function.Injective (candidate output_dir bn) := by
  intro i j h
  unfold candidate at h
  by_cases hi : i = 0 <;> by_cases hj : j = 0
  · omega
  · rw [if_pos hi, if_neg hj] at h
    have h' := congrArg (fun s => s.data.length) h
    have e4 := one_le_repr_data_length j
    simp only [String.data_append, List.length_append, List.length_cons,
      List.length_nil] at h'
    omega
  · rw [if_neg hi, if_pos hj] at h
    have h' := congrArg (fun s => s.data.length) h
    have e4 := one_le_repr_data_length i
    simp only [String.data_append, List.length_append, List.length_cons,
      List.length_nil] at h'
    omega
  · rw [if_neg hi, if_neg hj] at h
    have h' := congrArg String.data h
    simp only [String.data_append] at h'
    have h'' := List.append_cancel_right h'
    have h3 := List.append_cancel_left h''
    have h4 : decimal_chars i = decimal_chars j := by
      rw [← repr_data_eq_decimal_chars, ← repr_data_eq_decimal_chars]
      exact h3
    exact decimal_chars_inj h4

theorem exists_free_candidate (existing : List String) (output_dir bn : String) :
    ∃ c, c ≤ existing.length ∧ candidate output_dir bn c ∉ existing := by
  by_contra hc
  push_neg at hc
  have hsub : Finset.image (candidate output_dir bn) (Finset.range (existing.length + 1)) ⊆
      existing.toFinset := by
    intro x hx
    rw [Finset.mem_image] at hx
    obtain ⟨c, hc1, rfl⟩ := hx
    rw [Finset.mem_range] at hc1
    exact List.mem_toFinset.mpr (hc c (by omega))
  have h1 : (Finset.image (candidate output_dir bn) (Finset.range (existing.length + 1))).card =
      existing.length + 1 := by
    rw [Finset.card_image_of_injective _ (candidate_injective output_dir bn), Finset.card_range]
  have h2 := Finset.card_le_card hsub
  have h3 := List.toFinset_card_le existing
  omega

theorem find_free_counter_spec (existing : List String) (output_dir bn : String) :
    ∀ (fuel start : Nat), (∃ j, j ≤ fuel ∧ candidate output_dir bn (start + j) ∉ existing) →
      candidate output_dir bn (find_free_counter existing output_dir bn fuel start) ∉ existing ∧
      start ≤ find_free_counter existing output_dir bn fuel start ∧
      ∀ c, start ≤ c → c < find_free_counter existing output_dir bn fuel start →
        candidate output_dir bn c ∈ existing := by
  intro fuel
  induction fuel with
  | zero =>
    rintro start ⟨j, hj, hfree⟩
    have hj0 : j = 0 := by omega
    subst hj0
    refine ⟨by simpa using hfree, Nat.le_refl _, fun c h1 h2 => ?_⟩
    exact absurd h2 (by simp [find_free_counter]; omega)
  | succ fuel ih =>
    rintro start ⟨j, hj, hfree⟩
    by_cases hmem : candidate output_dir bn start ∈ existing
    · have hj0 : j ≠ 0 := by
        rintro rfl
        rw [Nat.add_zero] at hfree
        exact hfree hmem
      obtain ⟨j', rfl⟩ : ∃ j', j = j' + 1 := ⟨j - 1, by omega⟩
      have heq : find_free_counter existing output_dir bn (fuel + 1) start =
          find_free_counter existing output_dir bn fuel (start + 1) := by
        simp [find_free_counter, hmem]
      have hrec := ih (start + 1)
        ⟨j', by omega, by rwa [show start + 1 + j' = start + (j' + 1) by omega]⟩
      rw [heq]
      refine ⟨hrec.1, by omega, fun c h1 h2 => ?_⟩
      rcases Nat.eq_or_lt_of_le h1 with rfl | hlt
      · exact hmem
      · exact hrec.2.2 c (by omega) h2
    · have heq : find_free_counter existing output_dir bn (fuel + 1) start = start := by
        simp [find_free_counter, hmem]
      rw [heq]
      exact ⟨hmem, Nat.le_refl _, fun c h1 h2 => absurd h2 (by omega)⟩

theorem record_overdub_some_eq (obd : List Int) (sr duration : Nat) (capture : Nat → Int) :
    record_overdub ⟨some obd, sr⟩ duration capture =
      (if ((List.range (duration * sr)).map capture).length = (obd.take (duration * sr)).length
          ∨ ((List.range (duration * sr)).map capture).length = 1 then
        Except.ok (List.zipWith (· + ·) (obd.take (duration * sr))
            ((List.range (duration * sr)).map capture) ++
          (obd.take (duration * sr)).drop ((List.range (duration * sr)).map capture).length)
      else Except.error OverdubError.broadcastMismatch) := rfl

/-! ## Claim theorems -/

/-- C1 (amended): for every multi-stem job, the output of
`src/audio/processor.py` equals the pointwise sum of exactly those returned
stems whose label is not exactly (case-sensitively) equal to the removed
instrument — the removed label's stem contributes nothing, every other stem
is included — while in `src/processor.py` each case-insensitively kept stem
is written to the same path in turn, so its output file holds the last kept
stem rather than a sum. -/
theorem c1_kept_mix_characterization (sources : List (String × List Int))
    (instr : String) (n : Nat) (hne : sources ≠ [])
    (hlen : ∀ s ∈ sources, s.2.length = n) :
    finalMix sources instr =
      ((sources.filter fun s => s.1 != instr).map Prod.snd).foldl addWave (List.replicate n 0)
    ∧ demucs_saved_output sources instr =
      ((sources.filter fun s => strToLower s.1 != instr).map Prod.snd).getLast? := by
  constructor
  · obtain ⟨s₀, rest, rfl⟩ := List.exists_cons_of_ne_nil hne
    have hhead : ((s₀ :: rest).headD ("", ([] : List Int))).2.length = n :=
      hlen s₀ (List.mem_cons_self _ _)
    unfold finalMix
    rw [hhead, List.foldl_map]
    exact foldl_ite_filter (fun s => s.1 != instr) (fun acc s => addWave acc s.2)
      (s₀ :: rest) (List.replicate n 0)
  · calc demucs_saved_output sources instr
        = (((sources.filter fun s => !(strToLower s.1 == instr)).map Prod.snd).getLast?).or none :=
          foldl_ite_keepLast (fun s : String × List Int => strToLower s.1 == instr)
            Prod.snd sources none
      _ = ((sources.filter fun s => strToLower s.1 != instr).map Prod.snd).getLast? :=
          Option.or_none

/-- C1 counterexample: the claim as stated (case-insensitive comparison,
output equals the sum of kept stems) fails on the code.  With the removal
target spelled `"Vocals"`, `src/audio/processor.py` keeps the `"vocals"` stem
in the sum (`[3] = 1 + 2`) where the spec's case-insensitive mix would drop
it (`[2]`); and on a fully lowercase multi-stem job `src/processor.py`
produces the last kept stem (`[80]`, the vocals payload) instead of the sum
of the three kept stems (`[140]`). -/
theorem c1_counterexample :
    finalMix [("vocals", [1]), ("other", [2])] "Vocals" = [3]
    ∧ specKeptSum [("vocals", [1]), ("other", [2])] "Vocals" 1 = [2]
    ∧ ([3] : List Int) ≠ [2]
    ∧ demucs_saved_output [("drums", [10]), ("bass", [20]), ("other", [40]), ("vocals", [80])]
        "drums" = some [80]
    ∧ specKeptSum [("drums", [10]), ("bass", [20]), ("other", [40]), ("vocals", [80])]
        "drums" 1 = [140]
    ∧ (some [80] : Option (List Int)) ≠ some [140] := by
  refine ⟨rfl, rfl, by decide, rfl, rfl, by decide⟩

/-- C1 witness: the characterization applied to a concrete two-stem job. -/
theorem c1_witness :
    finalMix [("vocals", [1]), ("drums", [2])] "vocals" =
      (([("vocals", [1]), ("drums", [2])].filter fun s => s.1 != "vocals").map Prod.snd).foldl
        addWave (List.replicate 1 0)
    ∧ demucs_saved_output [("vocals", [1]), ("drums", [2])] "vocals" =
      (([("vocals", [1]), ("drums", [2])].filter fun s => strToLower s.1 != "vocals").map
        Prod.snd).getLast? :=
  c1_kept_mix_characterization [("vocals", [1]), ("drums", [2])] "vocals" 1
    (by decide) (by decide)

/-- C2: a quarantined identifier fails immediately with `previouslyFailed`
and zero backend attempts; a non-quarantined identifier is attempted exactly
once, and when the backend fails the identifier is added to the failed set,
the call fails with `loadFailed`, and a second request for the same
identifier — whatever the backend would now do — returns `previouslyFailed`
with zero backend attempts and unchanged state. -/
theorem c2_load_quarantine (mm0 mm : ModelManager) (loadOk loadOk2 : String → Bool)
    (name : String) (h0 : name ∈ mm0.failed_models) (h1 : name ∉ mm.failed_models)
    (h2 : loadOk name = false) :
    load_model_safely mm0 loadOk name =
      { outcome := Except.error LoadError.previouslyFailed, mm := mm0, attempts := 0 }
    ∧ (load_model_safely mm loadOk name).attempts = 1
    ∧ (load_model_safely mm loadOk name).outcome = Except.error LoadError.loadFailed
    ∧ name ∈ (load_model_safely mm loadOk name).mm.failed_models
    ∧ load_model_safely (load_model_safely mm loadOk name).mm loadOk2 name =
      { outcome := Except.error LoadError.previouslyFailed,
        mm := (load_model_safely mm loadOk name).mm, attempts := 0 } := by
  refine ⟨by simp [load_model_safely, h0], ?_, ?_, ?_, ?_⟩ <;>
    simp [load_model_safely, h1, h2, List.mem_cons]

/-- C2 witness: the quarantine behaviour at a concrete manager state, failing
backend, and identifier. -/
theorem c2_witness :
    load_model_safely ⟨["m1"], "cpu"⟩ (fun _ => false) "m1" =
      { outcome := Except.error LoadError.previouslyFailed, mm := ⟨["m1"], "cpu"⟩, attempts := 0 }
    ∧ (load_model_safely ⟨[], "cpu"⟩ (fun _ => false) "m1").attempts = 1
    ∧ (load_model_safely ⟨[], "cpu"⟩ (fun _ => false) "m1").outcome =
        Except.error LoadError.loadFailed
    ∧ "m1" ∈ (load_model_safely ⟨[], "cpu"⟩ (fun _ => false) "m1").mm.failed_models
    ∧ load_model_safely (load_model_safely ⟨[], "cpu"⟩ (fun _ => false) "m1").mm
        (fun _ => true) "m1" =
      { outcome := Except.error LoadError.previouslyFailed,
        mm := (load_model_safely ⟨[], "cpu"⟩ (fun _ => false) "m1").mm, attempts := 0 } :=
  c2_load_quarantine ⟨["m1"], "cpu"⟩ ⟨[], "cpu"⟩ (fun _ => false) (fun _ => true) "m1"
    (by decide) (by decide) rfl

/-- C3 (amended): the failed-model set is per-`ModelManager`-instance state:
within one manager it only ever grows (an identifier once quarantined stays
quarantined for every later load through that manager), but
`AudioProcessor.__init__` constructs a fresh manager whose failed set is
empty, so the quarantine does not survive into a new processor/job. -/
theorem c3_quarantine_scope (mm : ModelManager) (loadOk : String → Bool) (name m : String)
    (f d : String) (instrs : List String) (hq cuda mps : Bool)
    (h : m ∈ mm.failed_models) :
    m ∈ (load_model_safely mm loadOk name).mm.failed_models
    ∧ (AudioProcessor1.init f d instrs hq cuda mps).model_manager.failed_models = [] := by
  refine ⟨?_, rfl⟩
  unfold load_model_safely
  split_ifs with h1 h2
  · exact h
  · exact h
  · exact List.mem_cons_of_mem _ h

/-- C3 counterexample: the claim as stated (process-wide set, never reset
between jobs) fails.  Job 1's processor quarantines `"htdemucs_ft"` after a
load failure, yet job 2's freshly constructed processor starts with an empty
failed set and performs a full second load attempt, failing with
`loadFailed` instead of `previouslyFailed`. -/
theorem c3_counterexample :
    (load_model_safely
        (AudioProcessor1.init "a.wav" "out" ["drums"] false false false).model_manager
        (fun _ => false) "htdemucs_ft").mm.failed_models = ["htdemucs_ft"]
    ∧ (AudioProcessor1.init "b.wav" "out" ["drums"] false false false).model_manager.failed_models
        = []
    ∧ (load_model_safely
        (AudioProcessor1.init "b.wav" "out" ["drums"] false false false).model_manager
        (fun _ => false) "htdemucs_ft").attempts = 1
    ∧ (load_model_safely
        (AudioProcessor1.init "b.wav" "out" ["drums"] false false false).model_manager
        (fun _ => false) "htdemucs_ft").outcome = Except.error LoadError.loadFailed
    ∧ (Except.error LoadError.loadFailed : Except LoadError Unit) ≠
        Except.error LoadError.previouslyFailed :=
  ⟨rfl, rfl, rfl, rfl, fun hx => LoadError.noConfusion (Except.error.inj hx)⟩

/-- C3 witness: persistence inside one manager and freshness of a new
processor's manager, at concrete inputs. -/
theorem c3_witness :
    "m" ∈ (load_model_safely ⟨["m"], "cpu"⟩ (fun _ => true) "x").mm.failed_models
    ∧ (AudioProcessor1.init "in.wav" "out" ["bass"] true false false).model_manager.failed_models
        = [] :=
  c3_quarantine_scope ⟨["m"], "cpu"⟩ (fun _ => true) "x" "m" "in.wav" "out" ["bass"]
    true false false (by decide)

/-- C4 (amended): `src/audio/processor.py`'s `run` always uses the multi-stem
model `"htdemucs_ft"` (never an MDX single-stem model), even for a
vocals-only job; `src/processor.py` routes a job to the single-stem MDX
backend exactly when its first requested instrument lowercases to
`"vocals"` (and to multi-stem Demucs otherwise); and
`ModelManager.get_models_for_task` selects a single-stem MDX model exactly
for `("vocals", high_quality)`. -/
theorem c4_routing (instrs : List String) (hq : Bool) (task : String) :
    is_mdx_model (run1_model_name instrs hq) = false
    ∧ (run2_backend instrs).is_single_stem = (run2_instrument instrs == "vocals")
    ∧ (get_models_for_task task hq).all is_mdx_model = (task == "vocals" && hq) := by
  refine ⟨?_, ?_, ?_⟩
  · show is_mdx_model "htdemucs_ft" = false
    decide
  · unfold run2_backend
    cases h : run2_instrument instrs == "vocals" <;> simp [h, Backend.is_single_stem]
  · unfold get_models_for_task
    cases h : task == "vocals" && hq <;> decide

/-- C4 counterexample: a job whose sole requested instrument is `"vocals"`,
run through `src/audio/processor.py` (even with the high-quality flag), uses
the multi-stem `"htdemucs_ft"` model, which is not a single-stem MDX model;
and the `ModelManager` routing also sends non-high-quality vocals jobs to
the multi-stem model. -/
theorem c4_counterexample :
    run1_model_name ["vocals"] true = "htdemucs_ft"
    ∧ is_mdx_model "htdemucs_ft" = false
    ∧ is_mdx_model "UVR-MDX-NET-Voc_FT.onnx" = true
    ∧ get_models_for_task "vocals" false = ["htdemucs_ft"] := by
  refine ⟨rfl, by decide, by decide, rfl⟩

/-- C5: the output path is the deterministic base name (input stem plus
removed instrument) disambiguated by the incrementing numeric suffix: the
chosen path is the candidate at the counter found by the collision loop, it
never names an existing file (so nothing on disk, in particular the file at
the canonical path, is overwritten), and every candidate below the chosen
counter — `base.wav`, then `base_1.wav`, `base_2.wav`, … — does exist. -/
theorem c5_output_path (existing : List String) (output_dir input_stem : String)
    (instrs : List String) (c : Nat) :
    save_output_path existing output_dir (base_name input_stem instrs) ∉ existing
    ∧ save_output_path existing output_dir (base_name input_stem instrs) =
        candidate output_dir (base_name input_stem instrs)
          (find_free_counter existing output_dir (base_name input_stem instrs)
            (existing.length + 1) 0)
    ∧ (c < find_free_counter existing output_dir (base_name input_stem instrs)
          (existing.length + 1) 0 →
        candidate output_dir (base_name input_stem instrs) c ∈ existing) := by
  obtain ⟨j, hj, hfree⟩ :=
    exists_free_candidate existing output_dir (base_name input_stem instrs)
  have hs := find_free_counter_spec existing output_dir (base_name input_stem instrs)
    (existing.length + 1) 0 ⟨j, by omega, by simpa using hfree⟩
  exact ⟨hs.1, rfl, fun hc => hs.2.2 c (Nat.zero_le c) hc⟩

/-- C5 witness: with the canonical path and its `_1` variant both existing,
the pipeline's path avoids every existing file and the `_1` candidate (below
the chosen counter) is indeed occupied. -/
theorem c5_witness :
    save_output_path ["o/s_muteone_no_vocals.wav", "o/s_muteone_no_vocals_1.wav"] "o"
        (base_name "s" ["vocals"]) ∉
      ["o/s_muteone_no_vocals.wav", "o/s_muteone_no_vocals_1.wav"]
    ∧ candidate "o" (base_name "s" ["vocals"]) 1 ∈
      ["o/s_muteone_no_vocals.wav", "o/s_muteone_no_vocals_1.wav"] :=
  ⟨(c5_output_path ["o/s_muteone_no_vocals.wav", "o/s_muteone_no_vocals_1.wav"] "o" "s"
      ["vocals"] 1).1,
   (c5_output_path ["o/s_muteone_no_vocals.wav", "o/s_muteone_no_vocals_1.wav"] "o" "s"
      ["vocals"] 1).2.2 (by decide)⟩

/-- C6: when the loaded backing buffer has at least `duration × sampleRate`
frames, `record_overdub` completes, the capture buffer has exactly
`duration × sampleRate` frames, and the mixed output written to disk is the
first `duration × sampleRate` frames of the backing summed with the capture
— also exactly `duration × sampleRate` frames. -/
theorem c6_overdub_exact_frames (r : OverdubRecorder) (bd : List Int) (duration : Nat)
    (capture : Nat → Int) (hbd : r.backing_data = some bd)
    (h : duration * r.samplerate ≤ bd.length) :
    record_overdub r duration capture =
      Except.ok (List.zipWith (· + ·) (bd.take (duration * r.samplerate))
        ((List.range (duration * r.samplerate)).map capture))
    ∧ ((List.range (duration * r.samplerate)).map capture).length = duration * r.samplerate
    ∧ (List.zipWith (· + ·) (bd.take (duration * r.samplerate))
        ((List.range (duration * r.samplerate)).map capture)).length
      = duration * r.samplerate := by
  obtain ⟨rbd, sr⟩ := r
  have hbd' : rbd = some bd := hbd
  subst hbd'
  dsimp only at h ⊢
  have h' : duration * sr ≤ bd.length := h
  have hcond : ((List.range (duration * sr)).map capture).length
      = (bd.take (duration * sr)).length := by
    simp only [List.length_map, List.length_range, List.length_take]
    omega
  refine ⟨?_, by simp, ?_⟩
  · rw [record_overdub_some_eq, if_pos (Or.inl hcond)]
    have hdrop : (bd.take (duration * sr)).drop
        ((List.range (duration * sr)).map capture).length = [] :=
      List.drop_eq_nil_of_le
        (by simp only [List.length_take, List.length_map, List.length_range]; omega)
    rw [hdrop, List.append_nil]
  · simp only [List.length_zipWith, List.length_take, List.length_map, List.length_range]
    omega

/-- C6 witness: overdubbing a 5-frame backing for 3 frames (sample rate 1)
yields exactly the 3-frame mix of the first 3 backing frames with the
capture. -/
theorem c6_witness :
    record_overdub ⟨some [1, 2, 3, 4, 5], 1⟩ 3 (fun _ => 10) =
      Except.ok (List.zipWith (· + ·) ([1, 2, 3, 4, 5].take (3 * 1))
        ((List.range (3 * 1)).map (fun _ => 10)))
    ∧ ((List.range (3 * 1)).map (fun _ => (10 : Int))).length = 3 * 1
    ∧ (List.zipWith (· + ·) ([1, 2, 3, 4, 5].take (3 * 1))
        ((List.range (3 * 1)).map (fun _ => (10 : Int)))).length = 3 * 1 :=
  c6_overdub_exact_frames ⟨some [1, 2, 3, 4, 5], 1⟩ [1, 2, 3, 4, 5] 3 (fun _ => 10)
    rfl (by decide)

theorem pyInt_intCast (z : Int) : pyInt ((z : Int) : ℚ) = z := by
  unfold pyInt
  split_ifs with h
  · rw [← Int.cast_neg, Int.floor_intCast]
    omega
  · rw [Int.floor_intCast]

/-- C7: `seek` clamps to `[0, duration]` and is idempotent under clamping:
with a loaded buffer, `seek (-5)` and `seek 0` land the cursor in the same
place, as do `seek (duration + 10)` and `seek duration`, and any seek leaves
the cursor at most at the end of the buffer. -/
theorem c7_seek_clamp (p : AudioPlayer) (d : List Int) (seconds : ℚ) (h : p.data = some d) :
    seek p (-5) = seek p 0
    ∧ seek p (get_duration p + 10) = seek p (get_duration p)
    ∧ (seek p seconds).position ≤ d.length := by
  obtain ⟨pd, sr, pos⟩ := p
  have h' : pd = some d := h
  subst h'
  have hlen0 : (0 : Int) ≤ (d.length : Int) := Int.natCast_nonneg _
  have hsr0 : (0 : Int) ≤ (sr : Int) := Int.natCast_nonneg _
  have hseek : ∀ q : ℚ, seek ⟨some d, sr, pos⟩ q =
      ⟨some d, sr, (max 0 (min (pyInt (q * (sr : ℚ))) (d.length : Int))).toNat⟩ :=
    fun q => rfl
  have hdur : get_duration ⟨some d, sr, pos⟩ = (d.length : ℚ) / (sr : ℚ) := rfl
  refine ⟨?_, ?_, ?_⟩
  · rw [hseek, hseek]
    have e1 : pyInt ((-5 : ℚ) * (sr : ℚ)) = -(5 * (sr : Int)) := by
      rw [show ((-5 : ℚ) * (sr : ℚ)) = ((-(5 * (sr : Int)) : Int) : ℚ) by push_cast; ring,
        pyInt_intCast]
    have e2 : pyInt ((0 : ℚ) * (sr : ℚ)) = 0 := by
      rw [show ((0 : ℚ) * (sr : ℚ)) = (((0 : Int)) : ℚ) by push_cast; ring, pyInt_intCast]
    rw [e1, e2]
    exact congrArg (fun x => AudioPlayer.mk (some d) sr x) (by omega)
  · rw [hseek, hseek, hdur]
    by_cases hsr : sr = 0
    · subst hsr
      have e0 : ((d.length : ℚ) / ((0 : Nat) : ℚ) + 10) * ((0 : Nat) : ℚ) = ((0 : Int) : ℚ) := by
        push_cast
        ring
      have e0' : (d.length : ℚ) / ((0 : Nat) : ℚ) * ((0 : Nat) : ℚ) = ((0 : Int) : ℚ) := by
        push_cast
        ring
      rw [e0, e0', pyInt_intCast]
    · have hsrQ : ((sr : Nat) : ℚ) ≠ 0 := Nat.cast_ne_zero.mpr hsr
      have e1 : ((d.length : ℚ) / (sr : ℚ) + 10) * (sr : ℚ)
          = (((d.length : Int) + 10 * (sr : Int) : Int) : ℚ) := by
        rw [add_mul, div_mul_cancel₀ _ hsrQ]
        push_cast
        ring
      have e2 : (d.length : ℚ) / (sr : ℚ) * (sr : ℚ) = (((d.length : Int)) : ℚ) := by
        rw [div_mul_cancel₀ _ hsrQ]
        push_cast
        ring
      rw [e1, e2, pyInt_intCast, pyInt_intCast]
      have hsr1 : (0 : Int) < (sr : Int) := by
        exact_mod_cast Nat.pos_of_ne_zero hsr
      exact congrArg (fun x => AudioPlayer.mk (some d) sr x) (by omega)
  · rw [hseek]
    show (max 0 (min (pyInt (seconds * (sr : ℚ))) (d.length : Int))).toNat ≤ d.length
    rw [Int.toNat_le]
    omega

/-- C7 witness: the clamping equalities on a concrete loaded player. -/
theorem c7_witness :
    seek ⟨some [0, 0, 0], 44100, 0⟩ (-5) = seek ⟨some [0, 0, 0], 44100, 0⟩ 0
    ∧ seek ⟨some [0, 0, 0], 44100, 0⟩ (get_duration ⟨some [0, 0, 0], 44100, 0⟩ + 10) =
        seek ⟨some [0, 0, 0], 44100, 0⟩ (get_duration ⟨some [0, 0, 0], 44100, 0⟩)
    ∧ (seek ⟨some [0, 0, 0], 44100, 0⟩ 7).position ≤ [0, 0, 0].length :=
  c7_seek_clamp ⟨some [0, 0, 0], 44100, 0⟩ [0, 0, 0] 7 rfl

/-- C8: a recording session in which zero blocks were captured produces no
output file and reports no path; a session with at least one captured block
is persisted to the timestamped temporary file chosen at start, whose path
is reported; and the temp paths of two different timestamps differ. -/
theorem c8_zero_frames (r : LiveRecorder) (temp_dir : String) (t t' : Nat)
    (captured : List (List Int)) (h : r.is_recording = false) (hc : captured ≠ [])
    (ht : t ≠ t') :
    run_finalize [] (start_recording r temp_dir t).temp_file_path = none
    ∧ run_finalize captured (start_recording r temp_dir t).temp_file_path =
        some (temp_recording_path temp_dir t)
    ∧ temp_recording_path temp_dir t ≠ temp_recording_path temp_dir t' := by
  have hs : start_recording r temp_dir t =
      ⟨true, [], some (temp_recording_path temp_dir t)⟩ := by
    unfold start_recording
    rw [if_neg (by simp [h])]
  have hne : temp_recording_path temp_dir t ≠ "" := by
    intro hx
    unfold temp_recording_path at hx
    have h1 := congrArg (fun s => s.data.length) hx
    have h2 := one_le_repr_data_length t
    simp only [String.data_append, List.length_append, List.length_cons,
      List.length_nil] at h1
    omega
  refine ⟨?_, ?_, ?_⟩
  · rw [hs]
    simp [run_finalize]
  · rw [hs]
    show (if captured ≠ [] ∧ temp_recording_path temp_dir t ≠ "" then
        some (temp_recording_path temp_dir t) else none) = some (temp_recording_path temp_dir t)
    rw [if_pos ⟨hc, hne⟩]
  · intro hx
    unfold temp_recording_path at hx
    have h1 := congrArg String.data hx
    simp only [String.data_append] at h1
    have h2 := List.append_cancel_left (List.append_cancel_right h1)
    have h3 : decimal_chars t = decimal_chars t' := by
      rw [← repr_data_eq_decimal_chars, ← repr_data_eq_decimal_chars]
      exact h2
    exact ht (decimal_chars_inj h3)

/-- C8 witness: a freshly started recorder with one captured block reports
the timestamped path; with zero blocks it reports nothing. -/
theorem c8_witness :
    run_finalize [] (start_recording ⟨false, [], none⟩ "/tmp" 5).temp_file_path = none
    ∧ run_finalize [[1]] (start_recording ⟨false, [], none⟩ "/tmp" 5).temp_file_path =
        some (temp_recording_path "/tmp" 5)
    ∧ temp_recording_path "/tmp" 5 ≠ temp_recording_path "/tmp" 6 :=
  c8_zero_frames ⟨false, [], none⟩ "/tmp" 5 6 [[1]] rfl (by decide) (by decide)

/-- C9: `record_overdub` fails with `noBackingLoaded` exactly when no backing
buffer is loaded — the guard fires before any buffer is allocated or stream
opened, and with a backing loaded the precondition check passes (that error
is never produced). -/
theorem c9_no_backing_fails_fast (r : OverdubRecorder) (duration : Nat)
    (capture : Nat → Int) :
    record_overdub r duration capture = Except.error OverdubError.noBackingLoaded
      ↔ r.backing_data = none := by
  obtain ⟨rbd, sr⟩ := r
  cases rbd with
  | none => simp [record_overdub]
  | some bd =>
    rw [record_overdub_some_eq]
    constructor
    · intro h
      split_ifs at h
      all_goals
        first
          | exact Except.noConfusion h
          | exact absurd (Except.error.inj h) (fun hh => OverdubError.noConfusion hh)
    · intro h
      exact Option.noConfusion h

/-- C9 witness: the precondition failure at a concrete recorder without a
backing, via the characterization. -/
theorem c9_witness :
    record_overdub ⟨none, 44100⟩ 3 (fun _ => 0) = Except.error OverdubError.noBackingLoaded :=
  (c9_no_backing_fails_fast ⟨none, 44100⟩ 3 (fun _ => 0)).mpr rfl

/-- C10 (amended): when the backing buffer is strictly shorter than
`duration × sampleRate` frames and the capture length is not the degenerate
1, the in-place mixdown sum raises the numpy broadcast error and no output
is written.  (In the degenerate case `duration × sampleRate = 1` with an
empty backing, numpy broadcasts the size-1 operand and the run completes,
writing an empty file — see the counterexample.) -/
theorem c10_short_backing (r : OverdubRecorder) (bd : List Int) (duration : Nat)
    (capture : Nat → Int) (hbd : r.backing_data = some bd)
    (hshort : bd.length < duration * r.samplerate)
    (hne1 : duration * r.samplerate ≠ 1) :
    record_overdub r duration capture = Except.error OverdubError.broadcastMismatch := by
  obtain ⟨rbd, sr⟩ := r
  have hbd' : rbd = some bd := hbd
  subst hbd'
  dsimp only at hshort hne1 ⊢
  rw [record_overdub_some_eq, if_neg]
  rintro (hA | hB)
  · simp only [List.length_map, List.length_range, List.length_take] at hA
    omega
  · simp only [List.length_map, List.length_range] at hB
    omega

/-- C10 witness: a 1-frame backing with a 2-frame capture raises the
broadcast error. -/
theorem c10_witness :
    record_overdub ⟨some [5], 2⟩ 1 (fun _ => 3) = Except.error OverdubError.broadcastMismatch :=
  c10_short_backing ⟨some [5], 2⟩ [5] 1 (fun _ => 3) rfl (by decide) (by decide)

/-- C10 counterexample: the claim as stated fails in the degenerate case —
with an empty backing buffer and `duration × sampleRate = 1` the backing is
strictly shorter than the capture, yet numpy's broadcasting of the size-1
right-hand side lets the in-place sum succeed, the run completes normally,
and an (empty) output file is written. -/
theorem c10_counterexample :
    record_overdub ⟨some [], 1⟩ 1 (fun _ => 7) = Except.ok []
    ∧ ([] : List Int).length < 1 * 1 :=
  ⟨rfl, by decide⟩
